import Mathlib

/- Formal embedding of the WINM bank-email parsing core:
   scripts/email_parser/base.py, bbva.py, mercado_pago.py, nu.py and the
   dispatch table of scripts/main.py.

   Modelling conventions:
   * Python strings are Lean `String` / `List Char` (code points, as in CPython).
   * Python floats are `ℚ`; every amount the code manipulates is a short
     decimal literal, which the rational model represents exactly.
   * Python regular expressions are modelled by hand-written matchers that
     implement `re.search` (leftmost match, greedy quantifiers, ordered
     alternation) for the exact pattern literals appearing in the source.
     Wherever a quantifier cannot profit from backtracking (because every
     shorter munch leaves a character that the rest of the pattern rejects)
     the matcher uses maximal munch; each such spot carries a comment.
   * `\d`, `\s`, `[A-Z]` (ignorecase), `str.strip()` and `str.lower()` are
     modelled on the ASCII range, plus the Spanish accented letters that occur
     in the source's keyword lists; no other code points are exercised.
   * Fallible Python primitives (float(), email.utils.parsedate_to_datetime,
     dict subscription) get Option-valued pure models here; a second,
     exception-explicit embedding in the `Except` monad appears further down
     and is proved to agree with the pure one wherever the source's handlers
     catch the raised exception — the one uncaught path, OverflowError from
     the datetime constructor on oversized date-header fields, is modelled
     explicitly and escapes. -/

namespace WINM

/-- ASCII decimal digit, modelling the characters matched by `\d`. -/
def isDigitChar (c : Char) : Bool := 48 ≤ c.toNat && c.toNat ≤ 57

/-- Character class `[\d,]` of the amount patterns. -/
def isDigitOrComma (c : Char) : Bool := isDigitChar c || c.toNat = 44

/-- ASCII whitespace, modelling `\s` and the characters stripped by `str.strip()`. -/
def isSpaceChar (c : Char) : Bool :=
  c.toNat = 32 || c.toNat = 9 || c.toNat = 10 || c.toNat = 11 || c.toNat = 12 || c.toNat = 13

/-- ASCII letter, modelling `[A-Z]` under `re.IGNORECASE`. -/
def isAsciiLetter (c : Char) : Bool :=
  (65 ≤ c.toNat && c.toNat ≤ 90) || (97 ≤ c.toNat && c.toNat ≤ 122)

/-- Model of `str.lower()` on one character: ASCII letters plus the Latin-1
uppercase accented letters used in the source's keyword vocabulary
(Á É Í Ó Ú Ü Ñ, all at lowercase = uppercase + 32). -/
def pyLowerChar (c : Char) : Char :=
  if 65 ≤ c.toNat && c.toNat ≤ 90 then Char.ofNat (c.toNat + 32)
  else if c.toNat = 193 || c.toNat = 201 || c.toNat = 205 || c.toNat = 211 ||
          c.toNat = 218 || c.toNat = 220 || c.toNat = 209 then Char.ofNat (c.toNat + 32)
  else c

/-- Model of `str.lower()`. -/
def pyLower (l : List Char) : List Char := l.map pyLowerChar

/-- Model of Python's substring test `needle in hay`. -/
def containsSub : List Char → List Char → Bool
  | [], needle => needle.isEmpty
  | c :: t, needle => List.isPrefixOf needle (c :: t) || containsSub t needle

/-- Model of `any(keyword in text for keyword in kws)`. -/
def anyKw (text : List Char) (kws : List String) : Bool :=
  kws.any (fun k => containsSub text k.data)

/-- Case-insensitive literal match at the head of `l`; the pattern `w` is given
in lowercase (used for the `re.IGNORECASE` pattern pieces). -/
def ciStarts : List Char → List Char → Bool
  | [], _ => true
  | _ :: _, [] => false
  | p :: ps, c :: cs => (pyLowerChar c == p) && ciStarts ps cs

/-- Model of `text.replace(',', '')`. -/
def removeCommas (l : List Char) : List Char := l.filter (fun c => !(c == ','))

/-- Drop matching characters from the end of a list (for `str.strip`). -/
def stripEnd (p : Char → Bool) (l : List Char) : List Char :=
  (l.reverse.dropWhile p).reverse

/-- Drop matching characters from both ends (`str.strip(chars)`). -/
def stripBoth (p : Char → Bool) (l : List Char) : List Char :=
  stripEnd p (l.dropWhile p)

/-- Little-endian base-10 digits, with explicit fuel so that the recursion is
structural and concrete values reduce inside the kernel.  `fuel ≥ n` always
holds at the call sites, so the fuel-exhausted arm is unreachable. -/
def natDigitsRevAux : ℕ → ℕ → List ℕ
  | 0, _ => []
  | _ + 1, 0 => []
  | fuel + 1, n + 1 => ((n + 1) % 10) :: natDigitsRevAux fuel ((n + 1) / 10)

/-- Little-endian base-10 digits of a natural number (empty for 0). -/
def natDigitsRev (n : ℕ) : List ℕ := natDigitsRevAux n n

/-- Character for a single digit value. -/
def digitChar (d : ℕ) : Char := Char.ofNat (48 + d)

/-- Decimal rendering of a natural number (big-endian, "0" for 0). -/
def digitsStr (n : ℕ) : List Char :=
  if n = 0 then ['0'] else ((natDigitsRev n).map digitChar).reverse

/-- Zero-padded decimal rendering of width `w` (Python `%0wd` / `zfill`). -/
def padNum (w n : ℕ) : List Char :=
  List.replicate (w - (digitsStr n).length) '0' ++ digitsStr n

/-- Numeric value of a big-endian digit string. -/
def valDigits (l : List Char) : ℕ := l.foldl (fun a c => 10 * a + (c.toNat - 48)) 0

/-- Exponent suffix of a Python float literal: digits after `e`/`E` and an
optional sign.  The mantissa is carried as the pair `(m, k)` with value
`m / 10^k`, and the rational is assembled with a single `mkRat` (value
`m * 10^e / 10^k` for a positive exponent, `m / 10^(k+e)` for a negative one)
so that concrete evaluations reduce in the kernel. -/
def floatExpDigits (m k : ℕ) (sgn : ℤ) (l : List Char) : Option ℚ :=
  if l.isEmpty || !(l.all isDigitChar) then none
  else some (if sgn < 0 then mkRat m (10 ^ (k + valDigits l))
             else mkRat (m * 10 ^ valDigits l) (10 ^ k))

/-- Optional `e`/`E` exponent at the end of a Python float literal; anything
left over makes the whole literal unparseable.  Without an exponent the value
is the mantissa `m / 10^k`. -/
def floatExp (m k : ℕ) (l : List Char) : Option ℚ :=
  if l.isEmpty then some (mkRat m (10 ^ k))
  else if l.head? = some 'e' || l.head? = some 'E' then
    if l.tail.head? = some '+' then floatExpDigits m k 1 l.tail.tail
    else if l.tail.head? = some '-' then floatExpDigits m k (-1) l.tail.tail
    else floatExpDigits m k 1 l.tail
  else none

/-- Unsigned part of a Python float literal: `digits [. digits]` or `. digits`,
then an optional exponent.  The mantissa `ipart.fpart` has the value
`valDigits (ipart ++ fpart) / 10^fpart.length`. -/
def pyFloatMag (l : List Char) : Option ℚ :=
  let ipart := l.takeWhile isDigitChar
  let rest := l.drop ipart.length
  if rest.head? = some '.' then
    let fpart := rest.tail.takeWhile isDigitChar
    let rest2 := rest.tail.drop fpart.length
    if ipart.isEmpty && fpart.isEmpty then none
    else floatExp (valDigits (ipart ++ fpart)) fpart.length rest2
  else if ipart.isEmpty then none else floatExp (valDigits ipart) 0 rest

/-- Model of Python `float(s)` on strings: surrounding whitespace, an optional
sign, a decimal mantissa and an optional exponent.  `inf`, `nan` and
underscore separators are not modelled — the parser only ever feeds this
function digit/dot strings.  `none` models the `ValueError` branch. -/
def pyFloatStr (l : List Char) : Option ℚ :=
  let t := stripEnd isSpaceChar (l.dropWhile isSpaceChar)
  if t.head? = some '+' then pyFloatMag t.tail
  else if t.head? = some '-' then (pyFloatMag t.tail).map Neg.neg
  else pyFloatMag t

/-- Greedy `[\d,]+\.?\d*` at the head of `l`: the maximal digit/comma run, an
optional dot and the maximal following digit run.  Nothing follows the group
in patterns 1 and 3 of `extract_amount`, so maximal munch is exact; pattern 2
also needs no backtracking (see `matchPat2At`).  Returns the captured group
together with the remaining input. -/
def matchNumCore (l : List Char) : Option (List Char × List Char) :=
  let run := l.takeWhile isDigitOrComma
  if run.isEmpty then none
  else
    let l1 := l.drop run.length
    if l1.head? = some '.' then
      let frac := l1.tail.takeWhile isDigitChar
      some (run ++ '.' :: frac, l1.tail.drop frac.length)
    else some (run, l1)

/-- Generic model of `re.search`: try the position matcher `m` at every suffix,
leftmost success wins.  (All patterns used here need at least one character,
so the empty final position never matches.) -/
def searchAt {α : Type} (m : List Char → Option α) : List Char → Option α
  | [] => none
  | c :: t => (m (c :: t)).orElse (fun _ => searchAt m t)

/-- Pattern `\$\s*([\d,]+\.?\d*)` at one position.  If fewer `\s*` characters
were consumed the next character would still be whitespace, never a digit, so
maximal munch on `\s*` is exact. -/
def matchPat1At (l : List Char) : Option (List Char) :=
  if l.head? = some '$' then (matchNumCore (l.tail.dropWhile isSpaceChar)).map Prod.fst
  else none

/-- Alternation `(?:MXN|pesos|peso)` of pattern 2 (case-sensitive: the source
passes no flags to `re.search` in `extract_amount`). -/
def pat2Suffix (l : List Char) : Bool :=
  List.isPrefixOf "MXN".data l || List.isPrefixOf "pesos".data l ||
    List.isPrefixOf "peso".data l

/-- Pattern `([\d,]+\.?\d*)\s*(?:MXN|pesos|peso)` at one position.  Every
shorter munch of the numeric group leaves a digit, comma or dot in front,
which `\s*(?:MXN|pesos|peso)` rejects, and a shorter `\s*` leaves a space; so
the single maximal-munch attempt is equivalent to full backtracking. -/
def matchPat2At (l : List Char) : Option (List Char) :=
  match matchNumCore l with
  | some (g, rest) => if pat2Suffix (rest.dropWhile isSpaceChar) then some g else none
  | none => none

/-- Pattern `([\d,]+\.?\d*)` at one position. -/
def matchPat3At (l : List Char) : Option (List Char) :=
  (matchNumCore l).map Prod.fst

/-- One iteration of the pattern loop of `BaseParser.extract_amount`: if the
pattern matched, `try: return float(group.replace(',',''))` and on
`ValueError` fall through to the next pattern (`next`). -/
def tryFloatGroup : Option (List Char) → Option ℚ → Option ℚ
  | some g, next =>
    match pyFloatStr (removeCommas g) with
    | some q => some q
    | none => next
  | none, next => next

/-- Model of `BaseParser.extract_amount` (base.py lines 46-73): the three
patterns are searched in order over `text.replace(',', '')`; the first match
whose group parses as a float is returned. -/
def extract_amount (text : String) : Option ℚ :=
  let t := removeCommas text.data
  tryFloatGroup (searchAt matchPat1At t)
    (tryFloatGroup (searchAt matchPat2At t)
      (tryFloatGroup (searchAt matchPat3At t) none))

/-- Model of a Python `datetime`: the fields `isoformat` renders, plus an
optional fixed-offset timezone in minutes. -/
structure PyDateTime where
  year : ℕ
  month : ℕ
  day : ℕ
  hour : ℕ
  minute : ℕ
  second : ℕ
  microsecond : ℕ
  tzOffsetMinutes : Option ℤ
deriving Repr, DecidableEq

/-- Model of `datetime.isoformat()`: `YYYY-MM-DDTHH:MM:SS`, a `.ffffff`
microsecond part when the microsecond is non-zero, and a `±HH:MM` suffix when
the datetime is timezone-aware. -/
def isoformat (dt : PyDateTime) : List Char :=
  padNum 4 dt.year ++ '-' :: padNum 2 dt.month ++ '-' :: padNum 2 dt.day ++
    'T' :: padNum 2 dt.hour ++ ':' :: padNum 2 dt.minute ++ ':' :: padNum 2 dt.second ++
    (if dt.microsecond = 0 then [] else '.' :: padNum 6 dt.microsecond) ++
    (match dt.tzOffsetMinutes with
     | none => []
     | some off =>
       (if off < 0 then '-' else '+') ::
         (padNum 2 (off.natAbs / 60) ++ ':' :: padNum 2 (off.natAbs % 60)))

/-- Exactly `n` digits at the head of `l` (for `\d{n}` and the bounded
`\d{1,2}` tries); returns the digits and the rest. -/
def digitsN (n : ℕ) (l : List Char) : Option (List Char × List Char) :=
  let t := l.take n
  if t.length = n && t.all isDigitChar then some (t, l.drop n) else none

/-- Separator class (slash or dash) of the date patterns. -/
def dateSep (l : List Char) : Option (List Char) :=
  if l.head? = some '/' || l.head? = some '-' then some l.tail else none

/-- One deterministic try of `(\d{1,2}) sep (\d{1,2}) sep (\d{4})` (sep being `/` or `-`) with the two
`\d{1,2}` groups fixed to widths `k1`, `k2`. -/
def dmyTry (k1 k2 : ℕ) (l : List Char) : Option (List Char × List Char × List Char) :=
  match digitsN k1 l with
  | none => none
  | some (g1, r1) =>
    match dateSep r1 with
    | none => none
    | some r2 =>
      match digitsN k2 r2 with
      | none => none
      | some (g2, r3) =>
        match dateSep r3 with
        | none => none
        | some r4 =>
          match digitsN 4 r4 with
          | none => none
          | some (g3, _) => some (g1, g2, g3)

/-- Pattern `(\d{1,2}) sep (\d{1,2}) sep (\d{4})` (sep being `/` or `-`) at one position: greedy
`\d{1,2}` tries width 2 before width 1, the later group backtracking before
the earlier one, exactly as the regex engine does. -/
def matchDMYAt (l : List Char) : Option (List Char × List Char × List Char) :=
  (dmyTry 2 2 l).orElse fun _ =>
    (dmyTry 2 1 l).orElse fun _ =>
      (dmyTry 1 2 l).orElse fun _ => dmyTry 1 1 l

/-- One deterministic try of `(\d{4}) sep (\d{1,2}) sep (\d{1,2})`. -/
def ymdTry (k2 k3 : ℕ) (l : List Char) : Option (List Char × List Char × List Char) :=
  match digitsN 4 l with
  | none => none
  | some (g1, r1) =>
    match dateSep r1 with
    | none => none
    | some r2 =>
      match digitsN k2 r2 with
      | none => none
      | some (g2, r3) =>
        match dateSep r3 with
        | none => none
        | some r4 =>
          match digitsN k3 r4 with
          | none => none
          | some (g3, _) => some (g1, g2, g3)

/-- Pattern `(\d{4}) sep (\d{1,2}) sep (\d{1,2})` at one position. -/
def matchYMDAt (l : List Char) : Option (List Char × List Char × List Char) :=
  (ymdTry 2 2 l).orElse fun _ =>
    (ymdTry 2 1 l).orElse fun _ =>
      (ymdTry 1 2 l).orElse fun _ => ymdTry 1 1 l

/-- Model of `str.zfill(2)`. -/
def zfill2 (l : List Char) : List Char :=
  List.replicate (2 - l.length) '0' ++ l

/-- Date string built from the matched groups (base.py lines 97-104): the
first group having four digits selects the year-first reading, and the ISO
string is assembled at midnight UTC with `zfill(2)` on month and day.  (No
range check happens in the source: only string formatting.) -/
def buildDate (g1 g2 g3 : List Char) : List Char :=
  let ymd := if g1.length = 4 then (g1, g2, g3) else (g3, g2, g1)
  ymd.1 ++ '-' :: zfill2 ymd.2.1 ++ '-' :: zfill2 ymd.2.2 ++ "T00:00:00Z".data

/-- Month-name table of RFC 2822 dates (case-insensitive three-letter names). -/
def monthNames : List (String × ℕ) :=
  [("jan", 1), ("feb", 2), ("mar", 3), ("apr", 4), ("may", 5), ("jun", 6),
   ("jul", 7), ("aug", 8), ("sep", 9), ("oct", 10), ("nov", 11), ("dec", 12)]

/-- Timezone part of an RFC 2822 date: `±HHMM` (with `-0000` meaning a naive
datetime, as in the Python library), `GMT`/`UT`, or absent (naive). -/
def rfcZone (l : List Char) : Option (Option ℤ) :=
  if l.isEmpty then some none
  else if l = "GMT".data || l = "UT".data then some (some 0)
  else
    match l with
    | s :: d1 :: d2 :: d3 :: d4 :: [] =>
      if (s = '+' || s = '-') && [d1, d2, d3, d4].all isDigitChar then
        let minutes : ℤ := (valDigits [d1, d2] * 60 + valDigits [d3, d4] : ℕ)
        if s = '-' then
          if minutes = 0 then some none else some (some (-minutes))
        else some (some minutes)
      else none
    | _ => none

/-- Two fixed digits with a given separator check, for `HH:MM:SS`. -/
def twoDigitsColon (l : List Char) : Option (ℕ × List Char) :=
  match digitsN 2 l with
  | some (d, r) =>
    if r.head? = some ':' then some (valDigits d, r.tail) else none
  | none => none

/-- Outcome of `email.utils.parsedate_to_datetime`: a datetime, a `ValueError`
(which base.py line 115 catches), or an `OverflowError` from the `datetime`
constructor's C-int conversion on an oversized numeric field (which the
`except (ValueError, TypeError)` handler does NOT catch). -/
inductive ParseDateResult where
  | ok : PyDateTime → ParseDateResult
  | valueErr : ParseDateResult
  | overflowErr : ParseDateResult
deriving Repr, DecidableEq

/-- Largest value CPython's `datetime()` accepts through its C `int` argument
conversion; larger field values raise `OverflowError` instead of the
`ValueError` that merely out-of-range (but convertible) values raise. -/
def cIntMax : ℕ := 2 ^ 31 - 1

/-- Modelled from the Python standard library: `email.utils.parsedate_to_datetime`
restricted to the canonical RFC 2822 shape `[Www, ]DD Mon YYYY HH:MM:SS [zone]`
with `zone` one of `±HHMM`, `GMT`, `UT` or absent — the shape of email `Date:`
headers, which is all the repository feeds it.  The day and year fields are
digit runs of arbitrary length (as in CPython's `_parsedate_tz`); after a
successful field parse, a day or year too large for the `datetime`
constructor's C-int conversion is an `OverflowError`, exactly the exception
that escapes `extract_date` (see claim 8).  Inputs outside the canonical shape
conservatively report `ValueError`; CPython can also overflow on some exotic
shapes this subset rejects (e.g. a missing seconds field with a huge year),
which only makes the modelled no-overflow hypothesis of claim 8 narrower than
ideal, never the other way. -/
def parsedateFull (l : List Char) : ParseDateResult :=
  let l := l.dropWhile isSpaceChar
  let rest := if l.contains ',' then (l.dropWhile (fun c => !(c == ','))).tail else l
  let rest := rest.dropWhile isSpaceChar
  let dayDigits := rest.takeWhile isDigitChar
  if dayDigits.isEmpty then .valueErr
  else
    let r1 := (rest.drop dayDigits.length).dropWhile isSpaceChar
    let monName := pyLower (r1.take 3)
    match (monthNames.find? (fun p => p.1.data == monName)).map Prod.snd with
    | none => .valueErr
    | some mon =>
      let r2 := (r1.drop 3).dropWhile isSpaceChar
      let yearDigits := r2.takeWhile isDigitChar
      if yearDigits.length < 4 then .valueErr
      else
        let r4 := (r2.drop yearDigits.length).dropWhile isSpaceChar
        match twoDigitsColon r4 with
        | none => .valueErr
        | some (hh, r5) =>
          match twoDigitsColon r5 with
          | none => .valueErr
          | some (mi, r6) =>
            match digitsN 2 r6 with
            | none => .valueErr
            | some (ss, r7) =>
              let zone := r7.dropWhile isSpaceChar
              match rfcZone zone with
              | none => .valueErr
              | some tz =>
                if cIntMax < valDigits dayDigits || cIntMax < valDigits yearDigits then
                  .overflowErr
                else
                  .ok ⟨valDigits yearDigits, mon, valDigits dayDigits,
                       hh, mi, valDigits ss, 0, tz⟩

/-- Option view of `parsedateFull` for the pure embedding: both error
outcomes collapse to `none`.  On the `overflowErr` outcome the real code
raises instead of falling back, so the pure functions built on this are cited
by the theorems only under the no-overflow hypothesis (claim 8); the
exception-explicit embedding below keeps the two outcomes apart. -/
def parsedate (l : List Char) : Option PyDateTime :=
  match parsedateFull l with
  | .ok dt => some dt
  | _ => none

/-- Model of `BaseParser.extract_date` (base.py lines 75-119).  The wall clock
read by `datetime.now()` is passed in as `now`, making the third fallback tier
explicit.  Tier 1 searches the text for the day-first then the year-first
pattern; tier 2 parses the email header date (`if email_date:` — the empty
string is falsy); tier 3 stamps the current time.  Both fallback tiers return
`dt.isoformat() + 'Z'` exactly as the source does. -/
def extract_date (text : String) (email_date : String) (now : PyDateTime) : String :=
  match searchAt matchDMYAt text.data with
  | some (g1, g2, g3) => String.mk (buildDate g1 g2 g3)
  | none =>
    match searchAt matchYMDAt text.data with
    | some (g1, g2, g3) => String.mk (buildDate g1 g2 g3)
    | none =>
      if email_date.isEmpty then String.mk (isoformat now ++ ['Z'])
      else
        match parsedate email_date.data with
        | some dt => String.mk (isoformat dt ++ ['Z'])
        | none => String.mk (isoformat now ++ ['Z'])

/-- Runs of whitespace collapsed to one space: `re.sub(r'\s+', ' ', text)`.
Implemented as mapping every whitespace character to `' '` and then squeezing
adjacent spaces, which yields the same string. -/
def squeezeSpaces : List Char → List Char
  | [] => []
  | [c] => [c]
  | a :: b :: t =>
    if a = ' ' && b = ' ' then squeezeSpaces (b :: t) else a :: squeezeSpaces (b :: t)

/-- Edge punctuation stripped by `text.strip('.,;:!?')`. -/
def isEdgePunct (c : Char) : Bool :=
  c == '.' || c == ',' || c == ';' || c == ':' || c == '!' || c == '?'

/-- Model of `BaseParser.normalize_description` (base.py lines 121-140):
collapse whitespace runs, strip edge punctuation, truncate to 197 characters
plus `'...'` when longer than 200, and strip surrounding whitespace. -/
def normalizeDescL (l : List Char) : List Char :=
  let t1 := squeezeSpaces (l.map (fun c => if isSpaceChar c then ' ' else c))
  let t2 := stripBoth isEdgePunct t1
  let t3 := if 200 < t2.length then t2.take 197 ++ "...".data else t2
  stripBoth isSpaceChar t3

/-- String-level wrapper for `normalize_description`. -/
def normalize_description (text : String) : String :=
  String.mk (normalizeDescL text.data)

/-- Model of `BaseParser.determine_transaction_type` (base.py lines 202-225):
keyword groups tested in a fixed order, first hit wins, default `'otro'`. -/
def determine_transaction_type (text : String) : String :=
  let t := pyLower text.data
  if anyKw t ["compra", "cargo", "pago", "gasto"] then "compra"
  else if anyKw t ["ingreso", "abono", "deposito", "recibiste"] then "ingreso"
  else if anyKw t ["retiro", "retiraste", "sacar"] then "retiro"
  else if anyKw t ["transferencia", "transferiste"] then "transferencia"
  else "otro"

/-- Raw email record as handed over by the mail source (`email_content` dict;
the Python key `from` is called `fromAddr` here because `from` is reserved). -/
structure RawEmail where
  id : String
  subject : String
  body : String
  fromAddr : String
  date : String
deriving Repr, DecidableEq

/-- Model of `BaseParser.is_transaction_email` (base.py lines 178-200). -/
def is_transaction_email (e : RawEmail) : Bool :=
  let subject := pyLower e.subject.data
  let body := pyLower e.body.data
  anyKw (subject ++ ' ' :: body)
    ["compra", "pago", "cargo", "abono", "transferencia",
     "retiro", "deposito", "transaccion", "movimiento"]

/-- Python values that can appear in a transaction candidate dict. -/
inductive PyValue where
  | vNone : PyValue
  | vStr : String → PyValue
  | vNum : ℚ → PyValue
  | vBool : Bool → PyValue
deriving Repr, DecidableEq

/-- Candidate transaction data: a Python dict modelled as an association list
(first binding wins, as dict keys are unique). -/
abbrev Candidate : Type := List (String × PyValue)

/-- Dict lookup returning `none` when the key is absent. -/
def lookupField (data : Candidate) (k : String) : Option PyValue :=
  (List.find? (fun p => p.1 == k) data).map Prod.snd

/-- Model of `float(v)` on an arbitrary dict value: numbers and booleans
coerce, strings parse (`ValueError` on failure), `None` is a `TypeError`;
both failures are `none` here. -/
def pyFloatValue : PyValue → Option ℚ
  | .vNum q => some q
  | .vBool b => some (if b then 1 else 0)
  | .vStr s => pyFloatStr s.data
  | .vNone => none

/-- Python `v == s` for a dict value against a string literal (used by the
`in valid_types` membership tests; non-strings never equal a string). -/
def pyEqStr (v : PyValue) (s : String) : Bool :=
  match v with
  | .vStr t => t == s
  | _ => false

/-- Membership test against an optional dict value. -/
def optEqStr (v? : Option PyValue) (s : String) : Bool :=
  match v? with
  | some v => pyEqStr v s
  | none => false

/-- Required-field list of `BaseParser.validate_transaction` (base.py line
153).  Note that `email_id` and `needs_categorization` are not in it. -/
def required_fields : List String :=
  ["amount", "description", "date", "source", "transaction_type"]

/-- One step of the required-field loop: `field not in data or data[field] is
None` means rejection. -/
def fieldOk (data : Candidate) (f : String) : Bool :=
  match lookupField data f with
  | some PyValue.vNone => false
  | some _ => true
  | none => false

/-- Transaction-type vocabulary (base.py line 167). -/
def valid_types : List String := ["compra", "ingreso", "transferencia", "retiro", "otro"]

/-- Source vocabulary (base.py line 172). -/
def valid_sources : List String := ["Mercado Pago", "NU", "Plata Card", "BBVA"]

/-- Model of `BaseParser.validate_transaction` (base.py lines 142-176): all
required fields present and non-`None`, `float(data['amount'])` succeeds
(`ValueError`/`TypeError` mean rejection), and `transaction_type` and
`source` lie in the fixed vocabularies.  The `none` arm of the `amount`
lookup is unreachable because the required-field loop ran first. -/
def validate_transaction (data : Candidate) : Bool :=
  if required_fields.all (fun f => fieldOk data f) then
    match lookupField data "amount" with
    | some v =>
      match pyFloatValue v with
      | some _ =>
        if !(valid_types.any (fun t => optEqStr (lookupField data "transaction_type") t)) then
          false
        else if !(valid_sources.any (fun s => optEqStr (lookupField data "source") s)) then
          false
        else true
      | none => false
    | none => false
  else false

/-- Transaction record as built by the bank parsers (the dict literal of
bbva.py lines 62-72 and its siblings). -/
structure TransactionRecord where
  amount : ℚ
  description : String
  date : String
  source : String
  transaction_type : String
  email_id : String
  email_subject : String
  needs_categorization : Bool
  bank : String
deriving Repr, DecidableEq

/-- The dict a parser hands to `validate_transaction`. -/
def toCandidate (t : TransactionRecord) : Candidate :=
  [("amount", .vNum t.amount), ("description", .vStr t.description),
   ("date", .vStr t.date), ("source", .vStr t.source),
   ("transaction_type", .vStr t.transaction_type), ("email_id", .vStr t.email_id),
   ("email_subject", .vStr t.email_subject),
   ("needs_categorization", .vBool t.needs_categorization), ("bank", .vStr t.bank)]

/-- First case-insensitive alternative matching at the head of `l`; returns
the rest of the input.  All alternations this is used for have pairwise
distinct lowercased two-character openings, so the alternatives are mutually
exclusive at any position and committed choice equals regex backtracking. -/
def firstCiAlt (ws : List String) (l : List Char) : Option (List Char) :=
  match ws with
  | [] => none
  | w :: rest => if ciStarts w.data l then some (l.drop w.data.length) else firstCiAlt rest l

/-- Length variant of `firstCiAlt`, for the substitution patterns. -/
def firstCiAltLen (ws : List String) (l : List Char) : Option ℕ :=
  match ws with
  | [] => none
  | w :: rest => if ciStarts w.data l then some w.data.length else firstCiAltLen rest l

/-- `\s+` followed by a literal alternative (`en|a|de` or a keyword): at least
one whitespace character, maximal munch — a shorter munch would leave a
whitespace character where the non-whitespace literal must match, so no
backtracking is possible at these spots. -/
def wsRunGe1 (l : List Char) : Option (List Char) :=
  match l with
  | c :: t => if isSpaceChar c then some (t.dropWhile isSpaceChar) else none
  | [] => none

/-- Capture `([^\n\.]+)`: maximal non-empty run of characters that are neither
newline nor dot (greedy; nothing follows the capture in any of its uses). -/
def capNonDotNL (l : List Char) : Option (List Char) :=
  let run := l.takeWhile (fun c => !(c == '\n') && !(c == '.'))
  if run.isEmpty then none else some run

/-- Backtracking tail of `run+([^\n\.]+)` where `run` is a greedy whitespace
or `[:\s]` run of length `k ≥ 1`: the run gives back characters (down to one)
until the capture can start — a shorter run ends in `:`, space or tab, which
may legally start `[^\n\.]+`, while a run ending just before `.` (or in `\n`)
may not, so the backtracking is real.  Tries `drop k` first (longest run), as
the regex engine does. -/
def labeledBack (r1 : List Char) : ℕ → Option (List Char)
  | 0 => none
  | k + 1 =>
    match capNonDotNL (r1.drop (k + 1)) with
    | some g => some g
    | none => labeledBack r1 k

/-- Kernel of the description pattern `(?:K1|K2|...)\s+(?:en|a|de)\s+([^\n\.]+)`
(with `re.IGNORECASE`) at one position, parameterised by the bank's keyword
alternation.  The first `\s+` is committed maximal munch (`en|a|de` cannot
start with whitespace); the second `\s+` backtracks into the capture via
`labeledBack`, since whitespace other than `\n` may start `[^\n\.]+` — e.g.
`"Compra en  ."` matches with group `" "`. -/
def descKwPrepAt (kws : List String) (l : List Char) : Option (List Char) :=
  match firstCiAlt kws l with
  | some r1 =>
    match wsRunGe1 r1 with
    | some r2 =>
      match firstCiAlt ["en", "a", "de"] r2 with
      | some r3 =>
        let k := (r3.takeWhile isSpaceChar).length
        if k = 0 then none else labeledBack r3 k
      | none => none
    | none => none
  | none => none

/-- Length of a `[:\s]*` run. -/
def colonSpaceRun (l : List Char) : ℕ :=
  (l.takeWhile (fun c => c == ':' || isSpaceChar c)).length

/-- Pattern `label[:\s]+([^\n\.]+)` (with `re.IGNORECASE`) at one position. -/
def labeledAt (label : String) (l : List Char) : Option (List Char) :=
  if ciStarts label.data l then
    let r1 := l.drop label.data.length
    let run := colonSpaceRun r1
    if run = 0 then none else labeledBack r1 run
  else none

/-- Pattern `([A-Z][^\.\n]{10,50})` with `re.IGNORECASE` at one position: an
ASCII letter and then 10 to 50 more characters, greedy (nothing follows). -/
def phraseAt (l : List Char) : Option (List Char) :=
  match l with
  | c :: t =>
    if isAsciiLetter c then
      let run := t.takeWhile (fun ch => !(ch == '.') && !(ch == '\n'))
      let n := min run.length 50
      if n < 10 then none else some (c :: run.take n)
    else none
  | [] => none

/-- Model of `re.sub(pattern, '', text)` for an unanchored pattern with empty
replacement: `pat` reports the length of a match starting at the head; matched
spans are dropped, scanning resumes after each match (non-overlapping,
leftmost), other characters are kept. -/
def subAllAux (pat : List Char → Option ℕ) : ℕ → List Char → List Char
  | 0, l => l
  | _ + 1, [] => []
  | fuel + 1, c :: t =>
    match pat (c :: t) with
    | some (n + 1) => subAllAux pat fuel (t.drop n)
    | _ => c :: subAllAux pat fuel t

/-- Fuel-free wrapper: the list length bounds the number of scanning steps
(each step consumes at least one character), so the fuel-exhausted arm of the
auxiliary function is unreachable. -/
def subAll (pat : List Char → Option ℕ) (l : List Char) : List Char :=
  subAllAux pat l.length l

/-- Match length of `(alt1|alt2|...)[:\s]*` at the head (for the `re.sub`
cleanups); the trailing `[:\s]*` is maximal since nothing follows it. -/
def altColonSpacePat (ws : List String) (l : List Char) : Option ℕ :=
  match firstCiAltLen ws l with
  | some n => some (n + colonSpaceRun (l.drop n))
  | none => none

/-- Model of the anchored `re.sub(r'^(alt1|...)[:\s]*', '', s)`: with the `^`
anchor (and no MULTILINE flag) at most the single leading occurrence is
removed. -/
def stripLeadAlt (ws : List String) (l : List Char) : List Char :=
  match altColonSpacePat ws l with
  | some n => l.drop n
  | none => l

/-- Model of `BBVAParser._extract_description` (bbva.py lines 104-126). -/
def bbvaExtractDescription (body subject : String) : String :=
  let text := if body.isEmpty then subject.data else body.data
  match searchAt (descKwPrepAt ["compra", "pago", "retiro", "transferencia"]) text with
  | some g => String.mk (normalizeDescL g)
  | none =>
    match searchAt (labeledAt "concepto") text with
    | some g => String.mk (normalizeDescL g)
    | none =>
      match searchAt (labeledAt "descripción") text with
      | some g => String.mk (normalizeDescL g)
      | none =>
        if !subject.isEmpty then
          String.mk (normalizeDescL (stripLeadAlt ["bbva", "notificación", "aviso"] subject.data))
        else
          String.mk (normalizeDescL
            (if !body.isEmpty then body.data.take 100 else "Transacción BBVA".data))

/-- Keyword lists of `BBVAParser._is_transaction_notification` (bbva.py lines
87-90). -/
def bbvaTransactionKws : List String :=
  ["cargo", "abono", "compra", "pago", "retiro", "transferencia"]

/-- Exclusion keywords of the BBVA pre-filter. -/
def bbvaExcludeKws : List String :=
  ["promocion", "promoción", "oferta", "publicidad", "newsletter"]

/-- Combined lowercased `f"{subject} {body}"` text the pre-filters scan. -/
def filterText (e : RawEmail) : List Char :=
  pyLower e.subject.data ++ ' ' :: pyLower e.body.data

/-- Model of `BBVAParser._is_transaction_notification` (bbva.py lines 80-96). -/
def bbvaIsTxNotification (e : RawEmail) : Bool :=
  anyKw (filterText e) bbvaTransactionKws && !(anyKw (filterText e) bbvaExcludeKws)

/-- Expense test of `BBVAParser.parse` (bbva.py line 47) — body only. -/
def bbvaIsExpense (body : String) : Bool :=
  anyKw (pyLower body.data) ["cargo", "compra", "pago"]

/-- Withdrawal test of `BBVAParser.parse` (bbva.py line 51) — body only. -/
def bbvaIsWithdrawal (body : String) : Bool :=
  anyKw (pyLower body.data) ["retiro", "retiraste", "cajero"]

/-- Model of `BBVAParser.parse` (bbva.py lines 21-78).  `now` is the wall
clock `datetime.now()` would read, made explicit.  `_extract_amount_from_text`
just delegates to the shared `extract_amount`. -/
def bbvaParse (now : PyDateTime) (e : RawEmail) : Option TransactionRecord :=
  if !(bbvaIsTxNotification e) then none
  else
    match extract_amount (if e.body.isEmpty then e.subject else e.body) with
    | none => none
    | some amount =>
      let is_expense := bbvaIsExpense e.body
      let tt0 := if is_expense then "compra" else "ingreso"
      let is_withdrawal := bbvaIsWithdrawal e.body
      let transaction_type := if is_withdrawal then "retiro" else tt0
      let t : TransactionRecord :=
        { amount := if is_expense || is_withdrawal then -|amount| else |amount|,
          description := bbvaExtractDescription e.body e.subject,
          date := extract_date e.body e.date now,
          source := "BBVA",
          transaction_type := transaction_type,
          email_id := e.id,
          email_subject := e.subject,
          needs_categorization := is_withdrawal,
          bank := "BBVA" }
      if validate_transaction (toCandidate t) then some t else none

/-- Cleanup substitution of mercado_pago.py line 122:
`re.sub(r'(Mercado Pago|MP)[:\s]*', '', desc, flags=re.IGNORECASE)`. -/
def mpCleanDesc (g : List Char) : List Char :=
  subAll (altColonSpacePat ["mercado pago", "mp"]) g

/-- Model of `MercadoPagoParser._extract_description` (mercado_pago.py lines
105-130).  Note the final fallback truncates `text` (body-or-subject), not
`body`. -/
def mpExtractDescription (body subject : String) : String :=
  let text := if body.isEmpty then subject.data else body.data
  match searchAt (descKwPrepAt ["compra", "pago"]) text with
  | some g => String.mk (normalizeDescL (mpCleanDesc g))
  | none =>
    match searchAt (labeledAt "concepto") text with
    | some g => String.mk (normalizeDescL (mpCleanDesc g))
    | none =>
      match searchAt (labeledAt "descripción") text with
      | some g => String.mk (normalizeDescL (mpCleanDesc g))
      | none =>
        match searchAt phraseAt text with
        | some g => String.mk (normalizeDescL (mpCleanDesc g))
        | none =>
          if !subject.isEmpty then
            String.mk (normalizeDescL
              (stripLeadAlt ["mercado pago", "mp", "notificación"] subject.data))
          else
            String.mk (normalizeDescL
              (if !text.isEmpty then text.take 100 else "Transacción Mercado Pago".data))

/-- Keyword lists of `MercadoPagoParser._is_transaction_notification`
(mercado_pago.py lines 91-92). -/
def mpTransactionKws : List String :=
  ["compra", "pago", "recibiste", "pagaste", "transacción"]

/-- Exclusion keywords of the Mercado Pago pre-filter. -/
def mpExcludeKws : List String :=
  ["promoción", "oferta", "publicidad", "newsletter", "sorteo"]

/-- Model of `MercadoPagoParser._is_transaction_notification`. -/
def mpIsTxNotification (e : RawEmail) : Bool :=
  anyKw (filterText e) mpTransactionKws && !(anyKw (filterText e) mpExcludeKws)

/-- Lowercased `(body + ' ' + subject)` used for classification by the
Mercado Pago and NU parsers (note the order: body first). -/
def classifyText (e : RawEmail) : List Char :=
  pyLower (e.body.data ++ ' ' :: e.subject.data)

/-- Model of `MercadoPagoParser.parse` (mercado_pago.py lines 21-82). -/
def mpParse (now : PyDateTime) (e : RawEmail) : Option TransactionRecord :=
  if !(mpIsTxNotification e) then none
  else
    match extract_amount (if e.body.isEmpty then e.subject else e.body) with
    | none => none
    | some amount =>
      let income := anyKw (classifyText e) ["recibiste", "ingreso", "te pagaron"]
      let _expenseKw := anyKw (classifyText e) ["compra", "pago", "pagaste"]
      let transaction_type := if income then "ingreso" else "compra"
      let is_expense := if income then false else true
      let t : TransactionRecord :=
        { amount := if is_expense then -|amount| else |amount|,
          description := mpExtractDescription e.body e.subject,
          date := extract_date e.body e.date now,
          source := "Mercado Pago",
          transaction_type := transaction_type,
          email_id := e.id,
          email_subject := e.subject,
          needs_categorization := false,
          bank := "Mercado Pago" }
      if validate_transaction (toCandidate t) then some t else none

/-- Cleanup substitution of nu.py line 116. -/
def nuCleanDesc (g : List Char) : List Char :=
  subAll (altColonSpacePat ["nu", "notificación"]) g

/-- Model of `NUParser._extract_description` (nu.py lines 102-123): only three
patterns (no `Descripción:` label), NU-specific cleanup. -/
def nuExtractDescription (body subject : String) : String :=
  let text := if body.isEmpty then subject.data else body.data
  match searchAt (descKwPrepAt ["compra", "pago"]) text with
  | some g => String.mk (normalizeDescL (nuCleanDesc g))
  | none =>
    match searchAt (labeledAt "concepto") text with
    | some g => String.mk (normalizeDescL (nuCleanDesc g))
    | none =>
      match searchAt phraseAt text with
      | some g => String.mk (normalizeDescL (nuCleanDesc g))
      | none =>
        if !subject.isEmpty then
          String.mk (normalizeDescL (stripLeadAlt ["nu", "notificación"] subject.data))
        else
          String.mk (normalizeDescL
            (if !text.isEmpty then text.take 100 else "Transacción NU".data))

/-- Keyword lists of `NUParser._is_transaction_notification` (nu.py lines
89-90). -/
def nuTransactionKws : List String :=
  ["compra", "pago", "cargo", "recibiste", "transacción"]

/-- Exclusion keywords of the NU pre-filter. -/
def nuExcludeKws : List String :=
  ["promoción", "oferta", "publicidad", "newsletter", "invitación"]

/-- Model of `NUParser._is_transaction_notification`. -/
def nuIsTxNotification (e : RawEmail) : Bool :=
  anyKw (filterText e) nuTransactionKws && !(anyKw (filterText e) nuExcludeKws)

/-- Model of `NUParser.parse` (nu.py lines 21-81). -/
def nuParse (now : PyDateTime) (e : RawEmail) : Option TransactionRecord :=
  if !(nuIsTxNotification e) then none
  else
    match extract_amount (if e.body.isEmpty then e.subject else e.body) with
    | none => none
    | some amount =>
      let income := anyKw (classifyText e) ["recibiste", "ingreso", "abono"]
      let _expenseKw := anyKw (classifyText e) ["compra", "cargo", "pago", "pagaste"]
      let transaction_type := if income then "ingreso" else "compra"
      let is_expense := if income then false else true
      let t : TransactionRecord :=
        { amount := if is_expense then -|amount| else |amount|,
          description := nuExtractDescription e.body e.subject,
          date := extract_date e.body e.date now,
          source := "NU",
          transaction_type := transaction_type,
          email_id := e.id,
          email_subject := e.subject,
          needs_categorization := false,
          bank := "NU" }
      if validate_transaction (toCandidate t) then some t else none

/-- Modelled from the spec: `scripts/email_parser/plata_card.py` is imported
by `scripts/email_parser/__init__.py` (as `PlataCardParser`) and routed to by
`scripts/main.py`, but the file itself is absent from the repository snapshot.
Per spec §4.3 every variant follows the same four-step algorithm with
bank-tuned keyword sets and `source = 'Plata Card'`; this model mirrors the
NU variant's structure with generic keyword parameters. -/
def plataIsTxNotification (e : RawEmail) : Bool :=
  anyKw (filterText e) ["compra", "pago", "cargo", "transacción"] &&
    !(anyKw (filterText e) ["promoción", "oferta", "publicidad", "newsletter"])

/-- Modelled from the spec: the Plata Card variant's `parse`, following the
shared four-step algorithm of §4.3 with `source = 'Plata Card'`. -/
def plataParse (now : PyDateTime) (e : RawEmail) : Option TransactionRecord :=
  if !(plataIsTxNotification e) then none
  else
    match extract_amount (if e.body.isEmpty then e.subject else e.body) with
    | none => none
    | some amount =>
      let income := anyKw (classifyText e) ["recibiste", "ingreso", "abono"]
      let transaction_type := if income then "ingreso" else "compra"
      let is_expense := if income then false else true
      let t : TransactionRecord :=
        { amount := if is_expense then -|amount| else |amount|,
          description := String.mk (normalizeDescL
            (if !e.body.isEmpty then e.body.data.take 100
             else if !e.subject.isEmpty then e.subject.data.take 100
             else "Transacción Plata Card".data)),
          date := extract_date e.body e.date now,
          source := "Plata Card",
          transaction_type := transaction_type,
          email_id := e.id,
          email_subject := e.subject,
          needs_categorization := false,
          bank := "Plata Card" }
      if validate_transaction (toCandidate t) then some t else none

/-- The four parser variants, as routed to by `scripts/main.py`. -/
inductive Bank where
  | bbva : Bank
  | mercadoPago : Bank
  | nu : Bank
  | plataCard : Bank
deriving Repr, DecidableEq

/-- Dispatch to a variant's `parse`. -/
def parseOf : Bank → PyDateTime → RawEmail → Option TransactionRecord
  | .bbva => bbvaParse
  | .mercadoPago => mpParse
  | .nu => nuParse
  | .plataCard => plataParse

/-- Model of the `BANK_PARSERS` dict of main.py lines 24-33, in insertion
order (Python dicts preserve it). -/
def BANK_PARSERS : List (String × Bank) :=
  [("bbva.com", .bbva), ("bbva.com.mx", .bbva),
   ("mercadopago.com", .mercadoPago), ("mercadopago.com.mx", .mercadoPago),
   ("nu.com.mx", .nu), ("nu.com", .nu),
   ("plata.com.mx", .plataCard), ("plata.com", .plataCard)]

/-- Model of `identify_bank_from_email` (main.py lines 36-53): lowercase the
sender, return the parser of the first domain contained in it, else `none`. -/
def identify_bank_from_email (e : RawEmail) : Option Bank :=
  (BANK_PARSERS.find? (fun p => containsSub (pyLower e.fromAddr.data) p.1.data)).map Prod.snd

/-- Python exceptions that the parsing core's primitives can raise.
`overflowError` comes from the `datetime` constructor inside
`parsedate_to_datetime` on oversized day/year fields and is the one exception
no handler in the source catches. -/
inductive PyExc where
  | valueError : PyExc
  | typeError : PyExc
  | keyError : PyExc
  | overflowError : PyExc
deriving Repr, DecidableEq

/-- Computation that may raise a Python exception. -/
abbrev PyM (α : Type) : Type := Except PyExc α

/-- Decidable equality of exception-explicit results, for concrete
evaluations. -/
instance instDecEqPyM {α : Type} [DecidableEq α] : DecidableEq (PyM α) := fun x y =>
  match x, y with
  | .ok a, .ok b =>
    if h : a = b then .isTrue (by rw [h]) else .isFalse (fun hc => h (Except.ok.inj hc))
  | .error a, .error b =>
    if h : a = b then .isTrue (by rw [h]) else .isFalse (fun hc => h (Except.error.inj hc))
  | .ok _, .error _ => .isFalse (fun hc => Except.noConfusion hc)
  | .error _, .ok _ => .isFalse (fun hc => Except.noConfusion hc)

lemma fieldOk_lookup (data : Candidate) (f : String) (h : fieldOk data f = true) :
    ∃ v, lookupField data f = some v ∧ v ≠ PyValue.vNone := by
  unfold fieldOk at h
  cases hl : lookupField data f with
  | none => rw [hl] at h; exact absurd h (by simp)
  | some v =>
    refine ⟨v, rfl, ?_⟩
    intro hv
    rw [hl, hv] at h
    exact absurd h (by simp)

lemma ite_some_eq {α : Type} {P : Prop} [Decidable P] {t r : α}
    (h : (if P then some t else none) = some r) : r = t := by
  split at h
  · exact (Option.some.inj h).symm
  · simp at h

lemma bbvaParse_some {now : PyDateTime} {e : RawEmail} {r : TransactionRecord}
    (h : bbvaParse now e = some r) :
    ∃ a, extract_amount (if e.body.isEmpty then e.subject else e.body) = some a ∧
      r.amount = (if bbvaIsExpense e.body || bbvaIsWithdrawal e.body then -|a| else |a|) ∧
      r.transaction_type =
        (if bbvaIsWithdrawal e.body then "retiro"
         else if bbvaIsExpense e.body then "compra" else "ingreso") ∧
      r.needs_categorization = bbvaIsWithdrawal e.body ∧ r.source = "BBVA" := by
  unfold bbvaParse at h
  cases hf : bbvaIsTxNotification e with
  | false => rw [hf] at h; simp at h
  | true =>
    rw [hf] at h
    simp only [Bool.not_true, Bool.false_eq_true, if_false] at h
    cases ha : extract_amount (if e.body.isEmpty then e.subject else e.body) with
    | none => rw [ha] at h; simp at h
    | some a =>
      rw [ha] at h
      dsimp only at h
      have hr := ite_some_eq h
      subst hr
      exact ⟨a, rfl, rfl, rfl, rfl, rfl⟩

lemma mpParse_some {now : PyDateTime} {e : RawEmail} {r : TransactionRecord}
    (h : mpParse now e = some r) :
    ∃ a, extract_amount (if e.body.isEmpty then e.subject else e.body) = some a ∧
      r.amount =
        (if anyKw (classifyText e) ["recibiste", "ingreso", "te pagaron"] then |a| else -|a|) ∧
      r.transaction_type =
        (if anyKw (classifyText e) ["recibiste", "ingreso", "te pagaron"] then "ingreso"
         else "compra") ∧
      r.needs_categorization = false ∧ r.source = "Mercado Pago" := by
  unfold mpParse at h
  cases hf : mpIsTxNotification e with
  | false => rw [hf] at h; simp at h
  | true =>
    rw [hf] at h
    simp only [Bool.not_true, Bool.false_eq_true, if_false] at h
    cases ha : extract_amount (if e.body.isEmpty then e.subject else e.body) with
    | none => rw [ha] at h; simp at h
    | some a =>
      rw [ha] at h
      dsimp only at h
      have hr := ite_some_eq h
      subst hr
      refine ⟨a, rfl, ?_, ?_, rfl, rfl⟩ <;>
        cases hI : anyKw (classifyText e) ["recibiste", "ingreso", "te pagaron"] <;> simp [hI]

lemma nuParse_some {now : PyDateTime} {e : RawEmail} {r : TransactionRecord}
    (h : nuParse now e = some r) :
    ∃ a, extract_amount (if e.body.isEmpty then e.subject else e.body) = some a ∧
      r.amount =
        (if anyKw (classifyText e) ["recibiste", "ingreso", "abono"] then |a| else -|a|) ∧
      r.transaction_type =
        (if anyKw (classifyText e) ["recibiste", "ingreso", "abono"] then "ingreso"
         else "compra") ∧
      r.needs_categorization = false ∧ r.source = "NU" := by
  unfold nuParse at h
  cases hf : nuIsTxNotification e with
  | false => rw [hf] at h; simp at h
  | true =>
    rw [hf] at h
    simp only [Bool.not_true, Bool.false_eq_true, if_false] at h
    cases ha : extract_amount (if e.body.isEmpty then e.subject else e.body) with
    | none => rw [ha] at h; simp at h
    | some a =>
      rw [ha] at h
      dsimp only at h
      have hr := ite_some_eq h
      subst hr
      refine ⟨a, rfl, ?_, ?_, rfl, rfl⟩ <;>
        cases hI : anyKw (classifyText e) ["recibiste", "ingreso", "abono"] <;> simp [hI]

lemma plataParse_some {now : PyDateTime} {e : RawEmail} {r : TransactionRecord}
    (h : plataParse now e = some r) :
    ∃ a, extract_amount (if e.body.isEmpty then e.subject else e.body) = some a ∧
      r.amount =
        (if anyKw (classifyText e) ["recibiste", "ingreso", "abono"] then |a| else -|a|) ∧
      r.transaction_type =
        (if anyKw (classifyText e) ["recibiste", "ingreso", "abono"] then "ingreso"
         else "compra") ∧
      r.needs_categorization = false ∧ r.source = "Plata Card" := by
  unfold plataParse at h
  cases hf : plataIsTxNotification e with
  | false => rw [hf] at h; simp at h
  | true =>
    rw [hf] at h
    simp only [Bool.not_true, Bool.false_eq_true, if_false] at h
    cases ha : extract_amount (if e.body.isEmpty then e.subject else e.body) with
    | none => rw [ha] at h; simp at h
    | some a =>
      rw [ha] at h
      dsimp only at h
      have hr := ite_some_eq h
      subst hr
      refine ⟨a, rfl, ?_, ?_, rfl, rfl⟩ <;>
        cases hI : anyKw (classifyText e) ["recibiste", "ingreso", "abono"] <;> simp [hI]

/-- Sign/type dichotomy shared by all four parser variants. -/
lemma sign_iff {tt : String} {amt a : ℚ} (haz : a ≠ 0)
    (hcase : (tt = "ingreso" ∧ amt = |a|) ∨ ((tt = "compra" ∨ tt = "retiro") ∧ amt = -|a|)) :
    (tt = "ingreso" ↔ 0 < amt) ∧ ((tt = "compra" ∨ tt = "retiro") ↔ amt < 0) := by
  have habs : (0 : ℚ) < |a| := abs_pos.mpr haz
  rcases hcase with ⟨rfl, rfl⟩ | ⟨htt, rfl⟩
  · refine ⟨⟨fun _ => habs, fun _ => rfl⟩, ?_⟩
    constructor
    · rintro (h | h) <;> exact absurd h (by decide)
    · intro hlt; exact absurd hlt (not_lt.mpr (abs_nonneg a))
  · have hneg : -|a| < 0 := neg_neg_of_pos habs
    refine ⟨?_, ⟨fun _ => hneg, fun _ => htt⟩⟩
    constructor
    · intro h
      rcases htt with rfl | rfl <;> exact absurd h (by decide)
    · intro hlt; exact absurd hlt (not_lt.mpr (le_of_lt hneg))

lemma bbva_sign {now : PyDateTime} {e : RawEmail} {r : TransactionRecord}
    (h : bbvaParse now e = some r) (hz : r.amount ≠ 0) :
    (r.transaction_type = "ingreso" ↔ 0 < r.amount) ∧
      ((r.transaction_type = "compra" ∨ r.transaction_type = "retiro") ↔ r.amount < 0) := by
  obtain ⟨a, -, hamt, htt, -, -⟩ := bbvaParse_some h
  have haz : a ≠ 0 := by
    intro h0
    subst h0
    rw [hamt] at hz
    revert hz
    cases (bbvaIsExpense e.body || bbvaIsWithdrawal e.body) <;> simp
  apply sign_iff haz
  cases hW : bbvaIsWithdrawal e.body with
  | true =>
    rw [hW] at hamt htt
    simp only [Bool.or_true, if_true] at hamt htt
    exact Or.inr ⟨Or.inr htt, hamt⟩
  | false =>
    cases hE : bbvaIsExpense e.body with
    | true =>
      rw [hW, hE] at hamt htt
      simp at hamt htt
      exact Or.inr ⟨Or.inl htt, hamt⟩
    | false =>
      rw [hW, hE] at hamt htt
      simp at hamt htt
      exact Or.inl ⟨htt, hamt⟩

lemma mp_sign {now : PyDateTime} {e : RawEmail} {r : TransactionRecord}
    (h : mpParse now e = some r) (hz : r.amount ≠ 0) :
    (r.transaction_type = "ingreso" ↔ 0 < r.amount) ∧
      ((r.transaction_type = "compra" ∨ r.transaction_type = "retiro") ↔ r.amount < 0) := by
  obtain ⟨a, -, hamt, htt, -, -⟩ := mpParse_some h
  have haz : a ≠ 0 := by
    intro h0
    subst h0
    rw [hamt] at hz
    revert hz
    cases anyKw (classifyText e) ["recibiste", "ingreso", "te pagaron"] <;> simp
  apply sign_iff haz
  cases hI : anyKw (classifyText e) ["recibiste", "ingreso", "te pagaron"] with
  | true => rw [hI] at hamt htt; simp at hamt htt; exact Or.inl ⟨htt, hamt⟩
  | false => rw [hI] at hamt htt; simp at hamt htt; exact Or.inr ⟨Or.inl htt, hamt⟩

lemma nu_sign {now : PyDateTime} {e : RawEmail} {r : TransactionRecord}
    (h : nuParse now e = some r) (hz : r.amount ≠ 0) :
    (r.transaction_type = "ingreso" ↔ 0 < r.amount) ∧
      ((r.transaction_type = "compra" ∨ r.transaction_type = "retiro") ↔ r.amount < 0) := by
  obtain ⟨a, -, hamt, htt, -, -⟩ := nuParse_some h
  have haz : a ≠ 0 := by
    intro h0
    subst h0
    rw [hamt] at hz
    revert hz
    cases anyKw (classifyText e) ["recibiste", "ingreso", "abono"] <;> simp
  apply sign_iff haz
  cases hI : anyKw (classifyText e) ["recibiste", "ingreso", "abono"] with
  | true => rw [hI] at hamt htt; simp at hamt htt; exact Or.inl ⟨htt, hamt⟩
  | false => rw [hI] at hamt htt; simp at hamt htt; exact Or.inr ⟨Or.inl htt, hamt⟩

lemma plata_sign {now : PyDateTime} {e : RawEmail} {r : TransactionRecord}
    (h : plataParse now e = some r) (hz : r.amount ≠ 0) :
    (r.transaction_type = "ingreso" ↔ 0 < r.amount) ∧
      ((r.transaction_type = "compra" ∨ r.transaction_type = "retiro") ↔ r.amount < 0) := by
  obtain ⟨a, -, hamt, htt, -, -⟩ := plataParse_some h
  have haz : a ≠ 0 := by
    intro h0
    subst h0
    rw [hamt] at hz
    revert hz
    cases anyKw (classifyText e) ["recibiste", "ingreso", "abono"] <;> simp
  apply sign_iff haz
  cases hI : anyKw (classifyText e) ["recibiste", "ingreso", "abono"] with
  | true => rw [hI] at hamt htt; simp at hamt htt; exact Or.inl ⟨htt, hamt⟩
  | false => rw [hI] at hamt htt; simp at hamt htt; exact Or.inr ⟨Or.inl htt, hamt⟩

/-- A fixed wall-clock instant used to instantiate the parsers' injectable
clock in concrete evaluations. -/
def sampleNow : PyDateTime := ⟨2024, 1, 2, 3, 4, 5, 0, none⟩

/-- C1 (amended).  For every record returned by a bank parser whose amount is
non-zero, `transaction_type = 'ingreso'` iff the amount is positive and
`transaction_type ∈ {'compra','retiro'}` iff the amount is negative.  (The
original claim, without the non-zero hypothesis, fails: a notification whose
only extractable amount is `$0` yields a returned record with amount `0`, see
the counterexample.) -/
theorem claim1_sign_invariant (now : PyDateTime) (e : RawEmail) (r : TransactionRecord)
    (h : bbvaParse now e = some r ∨ mpParse now e = some r ∨ nuParse now e = some r ∨
      plataParse now e = some r)
    (hz : r.amount ≠ 0) :
    (r.transaction_type = "ingreso" ↔ 0 < r.amount) ∧
      ((r.transaction_type = "compra" ∨ r.transaction_type = "retiro") ↔ r.amount < 0) := by
  rcases h with h | h | h | h
  exacts [bbva_sign h hz, mp_sign h hz, nu_sign h hz, plata_sign h hz]

/-- C1 counterexample to the claim as stated: a BBVA notification with body
"compra por $0.00" is parsed into a returned (valid) record with
`transaction_type = 'compra'` and `amount = 0` — the amount of a returned
record is not always non-zero and `'compra'` does not imply a negative
amount. -/
theorem claim1_sign_invariant_counterexample :
    (bbvaParse sampleNow ⟨"id1", "BBVA", "compra por $0.00", "", ""⟩).map
      (fun r => (r.transaction_type, r.amount)) = some ("compra", 0) := by
  decide

/-- Mercado Pago income notification used to instantiate C1's amended claim. -/
def mpIncomeEmail : RawEmail :=
  ⟨"m1", "Pago recibido", "Recibiste un pago de $300.00 de Juan Pérez", "", ""⟩

/-- The record `mpParse` produces for `mpIncomeEmail` under `sampleNow`. -/
def mpIncomeRecord : TransactionRecord :=
  ⟨300, "$300", "2024-01-02T03:04:05Z", "Mercado Pago", "ingreso", "m1",
   "Pago recibido", false, "Mercado Pago"⟩

/-- C1 witness: the amended sign invariant evaluated on a concrete Mercado
Pago income record with non-zero amount. -/
theorem claim1_sign_invariant_witness :
    (mpIncomeRecord.transaction_type = "ingreso" ↔ 0 < mpIncomeRecord.amount) ∧
      ((mpIncomeRecord.transaction_type = "compra" ∨
          mpIncomeRecord.transaction_type = "retiro") ↔ mpIncomeRecord.amount < 0) :=
  claim1_sign_invariant sampleNow mpIncomeEmail mpIncomeRecord
    (Or.inr (Or.inl (by decide))) (by decide)

lemma anyEqStr_iff (v : PyValue) (l : List String) :
    l.any (fun t => pyEqStr v t) = true ↔ ∃ t ∈ l, v = PyValue.vStr t := by
  cases v <;> simp [List.any_eq_true, pyEqStr]

lemma ifFF (x y : Bool) :
    (if (!x) = true then false else if (!y) = true then false else true) = true ↔
      x = true ∧ y = true := by
  cases x <;> cases y <;> simp

/-- Record-validity as §3 of the spec words it, restricted to the five fields
the code actually checks: those fields present and non-null, `amount`
coercible to a number, `transaction_type` and `source` in their fixed
vocabularies. -/
def specValid (d : Candidate) : Prop :=
  (∀ f ∈ required_fields, ∃ v, lookupField d f = some v ∧ v ≠ PyValue.vNone) ∧
  (∃ v q, lookupField d "amount" = some v ∧ pyFloatValue v = some q) ∧
  (∃ v t, lookupField d "transaction_type" = some v ∧ t ∈ valid_types ∧ v = PyValue.vStr t) ∧
  (∃ v s, lookupField d "source" = some v ∧ s ∈ valid_sources ∧ v = PyValue.vStr s)

/-- C2 (amended).  `validate_transaction` returns true exactly on candidates
whose five required fields `amount`, `description`, `date`, `source`,
`transaction_type` are present and non-null, whose `amount` coerces to a
number, and whose `transaction_type` and `source` lie in the fixed
vocabularies.  (The original claim also required `email_id`, which the code
does not check — see the counterexample.) -/
theorem claim2_validation_gate (d : Candidate) :
    validate_transaction d = true ↔ specValid d := by
  constructor
  · intro h
    unfold validate_transaction at h
    by_cases hg : required_fields.all (fun f => fieldOk d f) = true
    case neg => rw [if_neg hg] at h; exact absurd h (by simp)
    rw [if_pos hg] at h
    have hreq : ∀ f ∈ required_fields, ∃ v, lookupField d f = some v ∧ v ≠ PyValue.vNone :=
      fun f hf => fieldOk_lookup d f (List.all_eq_true.mp hg f hf)
    obtain ⟨va, hva, -⟩ := hreq "amount" (by simp [required_fields])
    obtain ⟨vt, hvt, -⟩ := hreq "transaction_type" (by simp [required_fields])
    obtain ⟨vs, hvs, -⟩ := hreq "source" (by simp [required_fields])
    rw [hva] at h
    dsimp only at h
    cases hfv : pyFloatValue va with
    | none => rw [hfv] at h; exact absurd h (by simp)
    | some q =>
      rw [hfv] at h
      rw [ifFF] at h
      obtain ⟨h1, h2⟩ := h
      rw [hvt] at h1
      rw [hvs] at h2
      simp only [optEqStr] at h1 h2
      obtain ⟨t, htl, htv⟩ := (anyEqStr_iff vt valid_types).mp h1
      obtain ⟨s2, hsl, hsv⟩ := (anyEqStr_iff vs valid_sources).mp h2
      exact ⟨hreq, ⟨va, q, hva, hfv⟩, ⟨vt, t, hvt, htl, htv⟩, ⟨vs, s2, hvs, hsl, hsv⟩⟩
  · rintro ⟨h1, ⟨va, q, hva, hfq⟩, ⟨vt, t, hvt, htl, htv⟩, ⟨vs, s2, hvs, hsl, hsv⟩⟩
    unfold validate_transaction
    have hg : required_fields.all (fun f => fieldOk d f) = true := by
      apply List.all_eq_true.mpr
      intro f hf
      obtain ⟨v, hv, hne⟩ := h1 f hf
      unfold fieldOk
      rw [hv]
      cases v <;> simp_all
    rw [if_pos hg, hva]
    dsimp only
    rw [hfq]
    dsimp only
    rw [ifFF]
    constructor
    · rw [hvt]
      simp only [optEqStr]
      exact (anyEqStr_iff vt valid_types).mpr ⟨t, htl, htv⟩
    · rw [hvs]
      simp only [optEqStr]
      exact (anyEqStr_iff vs valid_sources).mpr ⟨s2, hsl, hsv⟩

/-- C2 counterexample to the claim as stated: a candidate with no `email_id`
binding at all — hence missing a required field of the §3 record — is still
accepted by `validate_transaction`, because the code's required-field list
does not contain `email_id`. -/
theorem claim2_validation_gate_counterexample :
    validate_transaction
        [("amount", PyValue.vNum 5), ("description", PyValue.vStr "x"),
         ("date", PyValue.vStr "2024-01-01T00:00:00Z"), ("source", PyValue.vStr "BBVA"),
         ("transaction_type", PyValue.vStr "compra")] = true ∧
      lookupField
        [("amount", PyValue.vNum 5), ("description", PyValue.vStr "x"),
         ("date", PyValue.vStr "2024-01-01T00:00:00Z"), ("source", PyValue.vStr "BBVA"),
         ("transaction_type", PyValue.vStr "compra")] "email_id" = none := by
  exact ⟨by decide, by decide⟩

/-- Checker for the exact `YYYY-MM-DDTHH:MM:SSZ` shape the spec (and the
source's docstring) promise: template position `D` demands a digit, every
other position demands that literal character. -/
def matchesShape : List Char → List Char → Bool
  | [], [] => true
  | t :: ts, c :: cs => (if t = 'D' then isDigitChar c else c = t) && matchesShape ts cs
  | _, _ => false

/-- Membership of a string in the ISO shape `YYYY-MM-DDTHH:MM:SSZ`. -/
def isoShapeOk (s : String) : Bool := matchesShape "DDDD-DD-DDTDD:DD:DDZ".data s.data

/-- C3 (code bug).  With no date in the text and a timezone-aware RFC 2822
fallback date, `extract_date` returns `dt.isoformat() + 'Z'` =
`2024-01-01T10:00:00+00:00Z`, which is not of the promised
`YYYY-MM-DDTHH:MM:SSZ` form (the source's own docstring states that form);
the text-derived tier does produce the promised shape. -/
theorem claim3_extract_date_format :
    extract_date "" "Mon, 01 Jan 2024 10:00:00 +0000" sampleNow =
        "2024-01-01T10:00:00+00:00Z" ∧
      isoShapeOk "2024-01-01T10:00:00+00:00Z" = false ∧
      (∀ now : PyDateTime, isoShapeOk (extract_date "pago del 15/03/2024" "" now) = true) :=
  ⟨by decide, by decide, fun _ => rfl⟩

/-- C5 (confirmed).  If the combined subject+body text has no transaction
keyword, or has at least one exclusion keyword, the pre-filter fails and
`parse` returns `none` (for the BBVA and Mercado Pago variants, with their
own keyword vocabularies); in particular the promotional Mercado Pago email
of the spec's scenario is rejected. -/
theorem claim5_prefilter_short_circuit :
    (∀ (now : PyDateTime) (e : RawEmail),
        (anyKw (filterText e) bbvaTransactionKws = false ∨
          anyKw (filterText e) bbvaExcludeKws = true) → bbvaParse now e = none) ∧
    (∀ (now : PyDateTime) (e : RawEmail),
        (anyKw (filterText e) mpTransactionKws = false ∨
          anyKw (filterText e) mpExcludeKws = true) → mpParse now e = none) ∧
    (∀ now : PyDateTime,
        mpParse now
          ⟨"mp-1", "Promoción especial Mercado Pago", "Aprovecha esta compra única", "", ""⟩ =
          none) := by
  refine ⟨?_, ?_, ?_⟩
  · intro now e h
    have hf : bbvaIsTxNotification e = false := by
      unfold bbvaIsTxNotification
      rcases h with h | h <;> simp [h]
    unfold bbvaParse
    rw [hf]
    rfl
  · intro now e h
    have hf : mpIsTxNotification e = false := by
      unfold mpIsTxNotification
      rcases h with h | h <;> simp [h]
    unfold mpParse
    rw [hf]
    rfl
  · intro now
    have hf : mpIsTxNotification
        ⟨"mp-1", "Promoción especial Mercado Pago", "Aprovecha esta compra única", "", ""⟩ =
        false := by decide
    unfold mpParse
    rw [hf]
    rfl

/-- C5 witness: a statement email with no transaction keyword is dropped by
the BBVA parser. -/
theorem claim5_prefilter_short_circuit_witness :
    bbvaParse sampleNow ⟨"w5", "Tu estado de cuenta", "Saldo disponible", "", ""⟩ = none :=
  claim5_prefilter_short_circuit.1 sampleNow
    ⟨"w5", "Tu estado de cuenta", "Saldo disponible", "", ""⟩ (Or.inl (by decide))

/-- BBVA withdrawal scenario email of spec §8. -/
def bbvaWithdrawalEmail : RawEmail :=
  ⟨"id6", "BBVA aviso", "Retiro en cajero por $500.00", "", ""⟩

/-- The record `bbvaParse` produces for `bbvaWithdrawalEmail` under
`sampleNow`. -/
def bbvaWithdrawalRecord : TransactionRecord :=
  ⟨-500, "cajero por $500", "2024-01-02T03:04:05Z", "BBVA", "retiro", "id6",
   "BBVA aviso", true, "BBVA"⟩

/-- C6 (amended).  The spec's withdrawal scenario holds exactly
(`amount = -500`, type `retiro`, `needs_categorization = true`), and in
general a withdrawal keyword in the body forces type `retiro`,
`needs_categorization = true` and a non-positive amount — strictly negative
whenever the amount is non-zero.  (The original "makes the amount negative"
fails when the only extractable amount is zero, see the counterexample.) -/
theorem claim6_bbva_withdrawal :
    ((bbvaParse sampleNow bbvaWithdrawalEmail).map
        (fun r => (r.amount, r.transaction_type, r.needs_categorization)) =
      some (-500, "retiro", true)) ∧
    (∀ (now : PyDateTime) (e : RawEmail) (r : TransactionRecord),
        bbvaParse now e = some r → bbvaIsWithdrawal e.body = true →
        r.transaction_type = "retiro" ∧ r.needs_categorization = true ∧
          r.amount ≤ 0 ∧ (r.amount ≠ 0 → r.amount < 0)) := by
  refine ⟨by decide, ?_⟩
  intro now e r h hw
  obtain ⟨a, -, hamt, htt, hnc, -⟩ := bbvaParse_some h
  rw [hw] at hamt htt hnc
  simp only [Bool.or_true, if_true] at hamt htt
  refine ⟨htt, hnc, ?_, ?_⟩
  · rw [hamt]
    exact neg_nonpos.mpr (abs_nonneg a)
  · intro hz
    rw [hamt] at hz ⊢
    have haz : a ≠ 0 := fun h0 => hz (by rw [h0]; simp)
    exact neg_neg_of_pos (abs_pos.mpr haz)

/-- C6 counterexample to "makes the amount negative" as universally stated: a
withdrawal notification whose only amount is `$0` yields a returned record
with `amount = 0` (type and flag still forced). -/
theorem claim6_bbva_withdrawal_counterexample :
    (bbvaParse sampleNow ⟨"id6z", "BBVA aviso", "retiro de $0", "", ""⟩).map
      (fun r => (r.amount, r.transaction_type, r.needs_categorization)) =
    some (0, "retiro", true) := by decide

/-- C6 witness: the general withdrawal-override conclusion evaluated on the
spec's scenario record. -/
theorem claim6_bbva_withdrawal_witness :
    bbvaWithdrawalRecord.transaction_type = "retiro" ∧
      bbvaWithdrawalRecord.needs_categorization = true ∧
      bbvaWithdrawalRecord.amount ≤ 0 ∧
      (bbvaWithdrawalRecord.amount ≠ 0 → bbvaWithdrawalRecord.amount < 0) :=
  claim6_bbva_withdrawal.2 sampleNow bbvaWithdrawalEmail bbvaWithdrawalRecord
    (by decide) (by decide)

/-- C7 (confirmed).  The router resolves `notificaciones@bbva.com.mx` to the
BBVA parser, resolves `ofertas@randomstore.com` to `none`, and in general
returns `none` for any sender whose lowercased address contains none of the
table's domains. -/
theorem claim7_router :
    identify_bank_from_email ⟨"", "", "", "notificaciones@bbva.com.mx", ""⟩ = some Bank.bbva ∧
      identify_bank_from_email ⟨"", "", "", "ofertas@randomstore.com", ""⟩ = none ∧
      (∀ e : RawEmail,
        (∀ p ∈ BANK_PARSERS, containsSub (pyLower e.fromAddr.data) p.1.data = false) →
        identify_bank_from_email e = none) := by
  refine ⟨by decide, by decide, ?_⟩
  intro e h
  unfold identify_bank_from_email
  rw [List.find?_eq_none.mpr]
  · rfl
  · intro p hp
    simp [h p hp]

/-- C7 witness: the no-matching-domain conclusion evaluated on the spec's
unknown sender. -/
theorem claim7_router_witness :
    identify_bank_from_email ⟨"", "", "", "ventas@tienda.example", ""⟩ = none :=
  claim7_router.2.2 ⟨"", "", "", "ventas@tienda.example", ""⟩ (by decide)

/-- C9 (confirmed; the Plata Card variant is modelled from the spec, its
source file being absent).  Each of the four parser variants stamps every
record it returns with its own bank name, and that name lies in the fixed
four-value `source` vocabulary. -/
theorem claim9_four_variants_source :
    (∀ (now : PyDateTime) (e : RawEmail) (r : TransactionRecord),
        bbvaParse now e = some r → r.source = "BBVA" ∧ r.source ∈ valid_sources) ∧
      (∀ (now : PyDateTime) (e : RawEmail) (r : TransactionRecord),
        mpParse now e = some r → r.source = "Mercado Pago" ∧ r.source ∈ valid_sources) ∧
      (∀ (now : PyDateTime) (e : RawEmail) (r : TransactionRecord),
        nuParse now e = some r → r.source = "NU" ∧ r.source ∈ valid_sources) ∧
      (∀ (now : PyDateTime) (e : RawEmail) (r : TransactionRecord),
        plataParse now e = some r → r.source = "Plata Card" ∧ r.source ∈ valid_sources) := by
  refine ⟨?_, ?_, ?_, ?_⟩ <;> intro now e r h
  · obtain ⟨a, -, -, -, -, hsrc⟩ := bbvaParse_some h
    exact ⟨hsrc, by rw [hsrc]; simp [valid_sources]⟩
  · obtain ⟨a, -, -, -, -, hsrc⟩ := mpParse_some h
    exact ⟨hsrc, by rw [hsrc]; simp [valid_sources]⟩
  · obtain ⟨a, -, -, -, -, hsrc⟩ := nuParse_some h
    exact ⟨hsrc, by rw [hsrc]; simp [valid_sources]⟩
  · obtain ⟨a, -, -, -, -, hsrc⟩ := plataParse_some h
    exact ⟨hsrc, by rw [hsrc]; simp [valid_sources]⟩

/-- NU purchase notification and its parsed record, for C9's witness. -/
def nuPurchaseEmail : RawEmail := ⟨"n1", "NU", "Compra aprobada en OXXO por $45.00", "", ""⟩

/-- The record `nuParse` produces for `nuPurchaseEmail` under `sampleNow`. -/
def nuPurchaseRecord : TransactionRecord :=
  ⟨-45, "Compra aprobada en OXXO por $45", "2024-01-02T03:04:05Z", "NU", "compra", "n1",
   "NU", false, "NU"⟩

/-- C9 witness: the NU conjunct evaluated on a concrete NU record. -/
theorem claim9_four_variants_source_witness :
    nuPurchaseRecord.source = "NU" ∧ nuPurchaseRecord.source ∈ valid_sources :=
  claim9_four_variants_source.2.2.1 sampleNow nuPurchaseEmail nuPurchaseRecord (by decide)

/-- C10 (amended).  With an empty body, BBVA classification (which scans only
the body) finds no expense or withdrawal keyword, so any record parsed from
such an email has its amount extracted from the subject, type `'ingreso'` and
a non-negative amount — strictly positive whenever non-zero.  (The original
"positive amount" fails when the subject's only extractable amount is zero,
see the counterexample.) -/
theorem claim10_bbva_body_only_classification :
    ∀ (now : PyDateTime) (e : RawEmail) (r : TransactionRecord),
      e.body = "" → bbvaParse now e = some r →
      (∃ a, extract_amount e.subject = some a ∧ r.amount = |a|) ∧
        r.transaction_type = "ingreso" ∧ 0 ≤ r.amount ∧ (r.amount ≠ 0 → 0 < r.amount) := by
  intro now e r hb h
  obtain ⟨a, ha, hamt, htt, -, -⟩ := bbvaParse_some h
  rw [hb] at ha hamt htt
  have hE : bbvaIsExpense "" = false := by decide
  have hW : bbvaIsWithdrawal "" = false := by decide
  rw [hE, hW] at hamt htt
  simp only [Bool.or_false, Bool.false_or, if_false] at hamt htt
  simp only [String.isEmpty, if_true] at ha
  refine ⟨⟨a, ?_, hamt⟩, ?_, ?_, ?_⟩
  · simpa using ha
  · simpa using htt
  · rw [hamt]
    exact abs_nonneg a
  · intro hz
    rw [hamt] at hz ⊢
    exact abs_pos.mpr (fun h0 => hz (by rw [h0]; simp))

/-- C10 counterexample to "positive amount" as stated: subject `"compra $0"`
with an empty body parses to a record with type `'ingreso'` and amount `0`. -/
theorem claim10_bbva_body_only_counterexample :
    (bbvaParse sampleNow ⟨"id2", "compra $0", "", "", ""⟩).map
      (fun r => (r.transaction_type, r.amount)) = some ("ingreso", 0) := by decide

/-- Subject-only BBVA purchase email and its parsed record, for C10's
witness. -/
def bbvaSubjectOnlyEmail : RawEmail := ⟨"w10", "Compra en OXXO por $25.50", "", "", ""⟩

/-- The record `bbvaParse` produces for `bbvaSubjectOnlyEmail` under
`sampleNow`. -/
def bbvaSubjectOnlyRecord : TransactionRecord :=
  ⟨mkRat 51 2, "OXXO por $25", "2024-01-02T03:04:05Z", "BBVA", "ingreso", "w10",
   "Compra en OXXO por $25.50", false, "BBVA"⟩

/-- C10 witness: the amended conclusion evaluated on a concrete subject-only
BBVA purchase. -/
theorem claim10_bbva_body_only_witness :
    (∃ a, extract_amount bbvaSubjectOnlyEmail.subject = some a ∧
        bbvaSubjectOnlyRecord.amount = |a|) ∧
      bbvaSubjectOnlyRecord.transaction_type = "ingreso" ∧
      0 ≤ bbvaSubjectOnlyRecord.amount ∧
      (bbvaSubjectOnlyRecord.amount ≠ 0 → 0 < bbvaSubjectOnlyRecord.amount) :=
  claim10_bbva_body_only_classification sampleNow bbvaSubjectOnlyEmail bbvaSubjectOnlyRecord
    rfl (by decide)

/-! Digit-string machinery for C4's round-trip property. -/

lemma natDigitsRevAux_lt (fuel : ℕ) : ∀ (n d : ℕ), d ∈ natDigitsRevAux fuel n → d < 10 := by
  induction fuel with
  | zero => intro n d h; simp [natDigitsRevAux] at h
  | succ fuel ih =>
    intro n d h
    cases n with
    | zero => simp [natDigitsRevAux] at h
    | succ m =>
      simp only [natDigitsRevAux, List.mem_cons] at h
      rcases h with rfl | h
      · exact Nat.mod_lt _ (by norm_num)
      · exact ih _ _ h

/-- Little-endian valuation of a digit list. -/
def ofLE : List ℕ → ℕ
  | [] => 0
  | d :: t => d + 10 * ofLE t

lemma ofLE_natDigitsRevAux (fuel : ℕ) : ∀ n : ℕ, n ≤ fuel → ofLE (natDigitsRevAux fuel n) = n := by
  induction fuel with
  | zero => intro n h; interval_cases n; rfl
  | succ fuel ih =>
    intro n h
    cases n with
    | zero => rfl
    | succ m =>
      have hdiv : (m + 1) / 10 ≤ fuel :=
        le_trans (Nat.le_of_lt_succ (Nat.div_lt_self (Nat.succ_pos m) (by norm_num)))
          (Nat.le_of_succ_le_succ h)
      simp only [natDigitsRevAux, ofLE, ih _ hdiv]
      exact Nat.mod_add_div (m + 1) 10

lemma natDigitsRevAux_length (fuel : ℕ) :
    ∀ (n k : ℕ), n < 10 ^ k → (natDigitsRevAux fuel n).length ≤ k := by
  induction fuel with
  | zero => intro n k _; simp [natDigitsRevAux]
  | succ fuel ih =>
    intro n k hn
    cases n with
    | zero => simp [natDigitsRevAux]
    | succ m =>
      cases k with
      | zero => simp at hn
      | succ k =>
        simp only [natDigitsRevAux, List.length_cons, Nat.succ_le_succ_iff]
        exact ih _ _ ((Nat.div_lt_iff_lt_mul (by norm_num)).mpr (by rw [← pow_succ]; exact hn))

lemma digitChar_val {d : ℕ} (h : d < 10) : (digitChar d).toNat - 48 = d := by
  interval_cases d <;> decide

lemma digitChar_isDigit {d : ℕ} (h : d < 10) : isDigitChar (digitChar d) = true := by
  interval_cases d <;> decide

lemma digitsStr_all_digit (n : ℕ) : ∀ c ∈ digitsStr n, isDigitChar c = true := by
  intro c hc
  unfold digitsStr at hc
  split at hc
  · simp at hc
    subst hc
    decide
  · simp only [List.mem_reverse, List.mem_map] at hc
    obtain ⟨d, hd, rfl⟩ := hc
    exact digitChar_isDigit (natDigitsRevAux_lt _ _ _ hd)

lemma digitsStr_ne_nil (n : ℕ) : digitsStr n ≠ [] := by
  unfold digitsStr
  split
  · simp
  · rename_i h
    cases n with
    | zero => exact absurd rfl h
    | succ m => simp [natDigitsRev, natDigitsRevAux]

lemma digitsStr_length_le {n k : ℕ} (h : n < 10 ^ k) (hk : 1 ≤ k) :
    (digitsStr n).length ≤ k := by
  unfold digitsStr
  split
  · simpa using hk
  · simpa [natDigitsRev] using natDigitsRevAux_length n n k h

/-- Valuation step of `valDigits`. -/
lemma valDigits_from (b : List Char) :
    ∀ acc : ℕ, b.foldl (fun a c => 10 * a + (c.toNat - 48)) acc =
      acc * 10 ^ b.length + valDigits b := by
  induction b with
  | nil => intro acc; simp [valDigits]
  | cons c t ih =>
    intro acc
    have h1 := ih (10 * acc + (c.toNat - 48))
    have h2 := ih (10 * 0 + (c.toNat - 48))
    simp only [List.foldl_cons, valDigits] at *
    rw [h1, h2]
    simp only [List.length_cons, pow_succ]
    ring

lemma valDigits_append (a b : List Char) :
    valDigits (a ++ b) = valDigits a * 10 ^ b.length + valDigits b := by
  unfold valDigits
  rw [List.foldl_append]
  exact valDigits_from b _

lemma valDigits_digitsStr (n : ℕ) : valDigits (digitsStr n) = n := by
  unfold digitsStr
  split
  · rename_i h; subst h; decide
  · have key : ∀ L : List ℕ, (∀ d ∈ L, d < 10) → ∀ acc : ℕ,
        ((L.map digitChar).reverse).foldl (fun a c => 10 * a + (c.toNat - 48)) acc =
          acc * 10 ^ L.length + ofLE L := by
      intro L
      induction L with
      | nil => intro _ acc; simp [ofLE]
      | cons d t ih =>
        intro hL acc
        have hd : d < 10 := hL d (List.mem_cons_self d t)
        simp only [List.map_cons, List.reverse_cons, List.foldl_append, List.foldl_cons,
          List.foldl_nil, ofLE, List.length_cons]
        rw [ih (fun x hx => hL x (List.mem_cons_of_mem d hx)) acc, digitChar_val hd]
        ring
    unfold valDigits natDigitsRev
    rw [key _ (natDigitsRevAux_lt n n) 0, ofLE_natDigitsRevAux n n le_rfl]
    ring

lemma valDigits_replicate_zero (k : ℕ) : valDigits (List.replicate k '0') = 0 := by
  induction k with
  | zero => rfl
  | succ k ih =>
    have : ∀ m : ℕ, (List.replicate m '0').foldl (fun a c => 10 * a + (c.toNat - 48)) 0 = 0 := by
      intro m
      induction m with
      | zero => rfl
      | succ m ihm => simpa [List.replicate_succ, valDigits] using ihm
    exact this (k + 1)

lemma padNum_all_digit (w n : ℕ) : ∀ c ∈ padNum w n, isDigitChar c = true := by
  intro c hc
  unfold padNum at hc
  rcases List.mem_append.mp hc with h | h
  · rw [List.eq_of_mem_replicate h]; decide
  · exact digitsStr_all_digit n c h

lemma padNum_length {n : ℕ} (h : n < 100) : (padNum 2 n).length = 2 := by
  have hle : (digitsStr n).length ≤ 2 := digitsStr_length_le (by simpa using h) (by norm_num)
  unfold padNum
  simp [List.length_replicate]
  omega

lemma valDigits_padNum (w n : ℕ) : valDigits (padNum w n) = n := by
  unfold padNum
  rw [valDigits_append, valDigits_replicate_zero, valDigits_digitsStr]
  ring

/-! Run lemmas for the hand-written matchers. -/

lemma takeWhile_eq_self {p : Char → Bool} : ∀ {l : List Char},
    (∀ c ∈ l, p c = true) → l.takeWhile p = l := by
  intro l
  induction l with
  | nil => intro _; rfl
  | cons c t ih =>
    intro h
    rw [List.takeWhile_cons, if_pos (h c (List.mem_cons_self c t))]
    rw [ih (fun x hx => h x (List.mem_cons_of_mem c hx))]

lemma takeWhile_append_cons {p : Char → Bool} {y : Char} (ys : List Char) (hy : p y = false) :
    ∀ xs : List Char, (∀ c ∈ xs, p c = true) → (xs ++ y :: ys).takeWhile p = xs := by
  intro xs
  induction xs with
  | nil => intro _; simp [List.takeWhile_cons, hy]
  | cons c t ih =>
    intro h
    rw [List.cons_append, List.takeWhile_cons, if_pos (h c (List.mem_cons_self c t))]
    rw [ih (fun x hx => h x (List.mem_cons_of_mem c hx))]

lemma dropWhile_eq_self {p : Char → Bool} : ∀ {l : List Char},
    (∀ c ∈ l, p c = false) → l.dropWhile p = l := by
  intro l
  cases l with
  | nil => intro _; rfl
  | cons c t => intro h; rw [List.dropWhile_cons, if_neg (by simp [h c (List.mem_cons_self c t)])]

lemma stripEnd_eq_self {p : Char → Bool} {l : List Char}
    (h : ∀ c ∈ l, p c = false) : stripEnd p l = l := by
  unfold stripEnd
  rw [dropWhile_eq_self (fun c hc => h c (List.mem_reverse.mp hc)), List.reverse_reverse]

lemma not_space_of_digit {c : Char} (h : isDigitChar c = true) : isSpaceChar c = false := by
  unfold isDigitChar at h
  unfold isSpaceChar
  simp only [Bool.and_eq_true, decide_eq_true_eq] at h
  simp only [Bool.or_eq_false_iff, decide_eq_false_iff_not]
  omega

lemma digitOrComma_of_digit {c : Char} (h : isDigitChar c = true) : isDigitOrComma c = true := by
  unfold isDigitOrComma
  rw [h]
  rfl

/-- Comma-grouping of a little-endian digit list: a comma after every three
characters (fuel-structured; `fuel ≥ l.length` makes the 0-arm unreachable). -/
def groupRevAux : ℕ → List Char → List Char
  | 0, l => l
  | fuel + 1, l => if l.length ≤ 3 then l else l.take 3 ++ ',' :: groupRevAux fuel (l.drop 3)

/-- Modelled from the spec: the claim quantifies over "amount strings produced
by formatting a decimal number with comma thousands separators", i.e. Python
`f"{x:,}"` digit grouping — groups of three from the right. -/
def groupThousands (s : List Char) : List Char := (groupRevAux s.length s.reverse).reverse

/-- Modelled from the spec: the amount strings of the round-trip claim — a
`$` prefix, the integer part grouped with comma thousands separators and
exactly two decimal places (Python `f"${x:,.2f}"` for non-negative `x`; `n`
is the integer part and `f < 100` the cents). -/
def formatAmount (n f : ℕ) : String :=
  String.mk ('$' :: groupThousands (digitsStr n) ++ '.' :: padNum 2 f)

lemma removeCommas_eq_self {l : List Char} (h : ∀ c ∈ l, ¬ c = ',') : removeCommas l = l := by
  unfold removeCommas
  apply List.filter_eq_self.mpr
  intro c hc
  simpa using h c hc

lemma removeCommas_groupRevAux (fuel : ℕ) :
    ∀ l : List Char, (∀ c ∈ l, ¬ c = ',') → removeCommas (groupRevAux fuel l) = l := by
  induction fuel with
  | zero => intro l h; exact removeCommas_eq_self h
  | succ fuel ih =>
    intro l h
    unfold groupRevAux
    split
    · exact removeCommas_eq_self h
    · unfold removeCommas at *
      rw [List.filter_append]
      have h3 : List.filter (fun c => !(c == ',')) (l.take 3) = l.take 3 :=
        removeCommas_eq_self (fun c hc => h c (List.take_subset 3 l hc))
      have h4 : List.filter (fun c => !(c == ',')) (',' :: groupRevAux fuel (l.drop 3)) =
          List.filter (fun c => !(c == ',')) (groupRevAux fuel (l.drop 3)) := by
        simp [List.filter_cons]
      rw [h3, h4, ih (l.drop 3) (fun c hc => h c (List.drop_subset 3 l hc))]
      exact List.take_append_drop 3 l

lemma removeCommas_reverse (l : List Char) :
    removeCommas l.reverse = (removeCommas l).reverse := by
  unfold removeCommas
  induction l with
  | nil => rfl
  | cons c t ih =>
    by_cases hc : c = ','
    · subst hc; simp [List.filter_append, ih]
    · simp [List.filter_append, List.filter_cons, hc, ih]

lemma removeCommas_groupThousands {s : List Char} (h : ∀ c ∈ s, ¬ c = ',') :
    removeCommas (groupThousands s) = s := by
  unfold groupThousands
  rw [removeCommas_reverse,
    removeCommas_groupRevAux _ _ (fun c hc => h c (List.mem_reverse.mp hc)),
    List.reverse_reverse]

lemma digitsStr_no_comma (n : ℕ) : ∀ c ∈ digitsStr n, ¬ c = ',' := by
  intro c hc hcomma
  have := digitsStr_all_digit n c hc
  rw [hcomma] at this
  exact absurd this (by decide)

/-- The first amount pattern on a fully-known `$digits.dd` string: the match
succeeds at position 0 with the whole numeric tail as its group. -/
lemma matchPat1At_dollar {digits pad : List Char}
    (hdig : ∀ c ∈ digits, isDigitChar c = true) (hne : digits ≠ [])
    (hpad : ∀ c ∈ pad, isDigitChar c = true) :
    matchPat1At ('$' :: (digits ++ '.' :: pad)) = some (digits ++ '.' :: pad) := by
  have hdrop : (digits ++ '.' :: pad).dropWhile isSpaceChar = digits ++ '.' :: pad := by
    apply dropWhile_eq_self
    intro c hc
    rcases List.mem_append.mp hc with h | h
    · exact not_space_of_digit (hdig c h)
    · rcases List.mem_cons.mp h with rfl | h
      · decide
      · exact not_space_of_digit (hpad c h)
  have hrun : (digits ++ '.' :: pad).takeWhile isDigitOrComma = digits :=
    takeWhile_append_cons pad (by decide) digits (fun c hc => digitOrComma_of_digit (hdig c hc))
  have hend : digits.isEmpty = false := by
    cases digits with
    | nil => exact absurd rfl hne
    | cons a b => rfl
  have hfrac : pad.takeWhile isDigitChar = pad := takeWhile_eq_self hpad
  simp [matchPat1At, matchNumCore, hdrop, hrun, hend, hfrac, List.drop_left]

/-- Float parse of a fully-known `digits.dd` group. -/
lemma pyFloatStr_digits_dot {digits pad : List Char}
    (hdig : ∀ c ∈ digits, isDigitChar c = true) (hne : digits ≠ [])
    (hpad : ∀ c ∈ pad, isDigitChar c = true) :
    pyFloatStr (digits ++ '.' :: pad) =
      some (mkRat (valDigits (digits ++ pad)) (10 ^ pad.length)) := by
  have hall : ∀ c ∈ digits ++ '.' :: pad, isSpaceChar c = false := by
    intro c hc
    rcases List.mem_append.mp hc with h | h
    · exact not_space_of_digit (hdig c h)
    · rcases List.mem_cons.mp h with rfl | h
      · decide
      · exact not_space_of_digit (hpad c h)
  obtain ⟨c0, t0, hct⟩ : ∃ c0 t0, digits = c0 :: t0 := by
    cases digits with
    | nil => exact absurd rfl hne
    | cons c0 t0 => exact ⟨c0, t0, rfl⟩
  have hc0 : isDigitChar c0 = true := hdig c0 (by rw [hct]; exact List.mem_cons_self c0 t0)
  have hplus : c0 ≠ '+' := by
    intro hp
    rw [hp] at hc0
    exact absurd hc0 (by decide)
  have hminus : c0 ≠ '-' := by
    intro hm
    rw [hm] at hc0
    exact absurd hc0 (by decide)
  have hrun : (digits ++ '.' :: pad).takeWhile isDigitChar = digits :=
    takeWhile_append_cons pad (by decide) digits hdig
  have hend : digits.isEmpty = false := by rw [hct]; rfl
  have hfrac : pad.takeWhile isDigitChar = pad := takeWhile_eq_self hpad
  unfold pyFloatStr
  rw [dropWhile_eq_self hall, stripEnd_eq_self hall]
  rw [hct]
  simp only [List.cons_append, List.head?_cons, Option.some.injEq]
  rw [if_neg hplus, if_neg hminus, ← List.cons_append, ← hct]
  unfold pyFloatMag
  dsimp only
  rw [hrun]
  rw [List.drop_left digits ('.' :: pad)]
  simp only [List.head?_cons, Option.some.injEq, List.tail_cons, hfrac, List.drop_length,
    hend, if_true, if_pos rfl]
  rw [if_neg (by simp [hend])]
  unfold floatExp
  simp [hct]

/-- C4 (confirmed).  Formatting any non-negative decimal with a `$` prefix,
comma thousands separators and two decimal places and then running
`extract_amount` recovers the original number exactly; a text with no digits
at all yields `none`. -/
theorem claim4_amount_round_trip :
    (∀ n f : ℕ, f < 100 →
        extract_amount (formatAmount n f) = some ((n : ℚ) + (f : ℚ) / 100)) ∧
      extract_amount "sin cifras aqui" = none := by
  constructor
  · intro n f hf
    have hdig := digitsStr_all_digit n
    have hne := digitsStr_ne_nil n
    have hpad := padNum_all_digit 2 f
    have hlen := padNum_length hf
    -- step 1: comma removal gives the plain `$digits.dd` string
    have hclean : removeCommas (formatAmount n f).data =
        '$' :: (digitsStr n ++ '.' :: padNum 2 f) := by
      show removeCommas ('$' :: groupThousands (digitsStr n) ++ '.' :: padNum 2 f) = _
      have : ('$' :: groupThousands (digitsStr n) ++ '.' :: padNum 2 f) =
          ['$'] ++ groupThousands (digitsStr n) ++ ('.' :: padNum 2 f) := by simp
      rw [this]
      unfold removeCommas
      rw [List.filter_append, List.filter_append]
      have h1 : List.filter (fun c => !(c == ',')) ['$'] = ['$'] := by decide
      have h2 : List.filter (fun c => !(c == ',')) (groupThousands (digitsStr n)) =
          digitsStr n := removeCommas_groupThousands (digitsStr_no_comma n)
      have h3 : List.filter (fun c => !(c == ',')) ('.' :: padNum 2 f) = '.' :: padNum 2 f := by
        apply removeCommas_eq_self
        intro c hc
        rcases List.mem_cons.mp hc with rfl | hc
        · decide
        · intro hcom
          have := hpad c hc
          rw [hcom] at this
          exact absurd this (by decide)
      rw [h1, h2, h3]
      simp
    -- step 2: the first pattern matches at position 0
    have hsearch : searchAt matchPat1At ('$' :: (digitsStr n ++ '.' :: padNum 2 f)) =
        some (digitsStr n ++ '.' :: padNum 2 f) := by
      unfold searchAt
      rw [matchPat1At_dollar hdig hne hpad]
      rfl
    -- step 3: assemble
    unfold extract_amount
    rw [hclean]
    dsimp only
    rw [hsearch]
    have hnocomma : removeCommas (digitsStr n ++ '.' :: padNum 2 f) =
        digitsStr n ++ '.' :: padNum 2 f := by
      apply removeCommas_eq_self
      intro c hc
      rcases List.mem_append.mp hc with h | h
      · exact digitsStr_no_comma n c h
      · rcases List.mem_cons.mp h with rfl | h
        · decide
        · intro hcom
          have := hpad c h
          rw [hcom] at this
          exact absurd this (by decide)
    unfold tryFloatGroup
    dsimp only
    rw [hnocomma, pyFloatStr_digits_dot hdig hne hpad]
    -- step 4: the value is n + f/100
    have hval : valDigits (digitsStr n ++ padNum 2 f) = n * 100 + f := by
      rw [valDigits_append, valDigits_digitsStr, valDigits_padNum, hlen]
      norm_num
    rw [hval, hlen]
    rw [Rat.mkRat_eq_div]
    push_cast
    field_simp
  · decide

/-- C4 witness: the spec's own example — `$1,234.56` round-trips to
`1234.56`. -/
theorem claim4_amount_round_trip_witness :
    formatAmount 1234 56 = "$1,234.56" ∧
      extract_amount "$1,234.56" = some (1234.56 : ℚ) := by
  have h := claim4_amount_round_trip.1 1234 56 (by norm_num)
  have hfmt : formatAmount 1234 56 = "$1,234.56" := by decide
  refine ⟨hfmt, ?_⟩
  rw [← hfmt, h]
  norm_num

end WINM
